import Mathlib

/-
Shallow embedding of the pokemon-team-generator validation/repair core.

Texts are modelled as `List Char`.  The JavaScript string operations used by
the source (`split('\n')`, `split('\n\n')`, `trim()`, `startsWith`,
`includes`, `replace(pat, '')` on the first occurrence, `match(/\d+/g)`)
are modelled by executable functions below with the same semantics.

Source functions embedded:
  * `validateEVSpread`, `validatePokemon`, `validateTeam`
    (utils/pokemon-utils.js, bundled in src/USAGE.md)
  * `validateAndFixTeam` (server file src/unnamed/part_000)
-/

namespace PokemonGen

/-- Whitespace characters removed by JavaScript String.prototype.trim
(the subset that can occur in this domain). -/
def isWs (c : Char) : Bool :=
  c = ' ' || c = '\t' || c = '\n' || c = '\r' || c = '\x0b' || c = '\x0c' || c = ' '

/-- Model of JavaScript `s.trim()`: drop whitespace from both ends. -/
def trim (l : List Char) : List Char :=
  ((l.dropWhile isWs).reverse.dropWhile isWs).reverse

/-- Attach a character to the front of the first piece of a split result. -/
def consHead (c : Char) : List (List Char) → List (List Char)
  | [] => [[c]]
  | l :: ls => (c :: l) :: ls

/-- Model of JavaScript `s.split('\n')`. -/
def splitOnNl : List Char → List (List Char)
  | [] => [[]]
  | c :: cs =>
    if c = '\n' then [] :: splitOnNl cs
    else consHead c (splitOnNl cs)

/-- Model of JavaScript `s.split('\n\n')` (leftmost, non-overlapping). -/
def splitOnNl2 : List Char → List (List Char)
  | [] => [[]]
  | [c] => [[c]]
  | c :: c' :: cs =>
    if c = '\n' ∧ c' = '\n' then [] :: splitOnNl2 cs
    else consHead c (splitOnNl2 (c' :: cs))

/-- Model of JavaScript `Array.prototype.join(sep)`. -/
def joinSep (sep : List Char) : List (List Char) → List Char
  | [] => []
  | [l] => l
  | l :: l' :: ls => l ++ sep ++ joinSep sep (l' :: ls)

/-- Model of JavaScript `s.includes(pat)` for string `pat`. -/
def containsSeq (pat : List Char) : List Char → Bool
  | [] => pat.isEmpty
  | c :: cs => pat.isPrefixOf (c :: cs) || containsSeq pat cs

/-- Model of JavaScript `s.replace(pat, repl)` with a plain-string pattern:
replace the leftmost occurrence only. -/
def replaceFirst (pat repl : List Char) : List Char → List Char
  | [] => if pat.isEmpty then repl else []
  | c :: cs =>
    if pat.isPrefixOf (c :: cs) then repl ++ (c :: cs).drop pat.length
    else c :: replaceFirst pat repl cs

/-- Worker for `digitRuns`; `cur` is the digit run in progress, reversed. -/
def digitRunsGo : List Char → List Char → List (List Char)
  | [], cur => if cur.isEmpty then [] else [cur.reverse]
  | c :: cs, cur =>
    if c.isDigit then digitRunsGo cs (c :: cur)
    else if cur.isEmpty then digitRunsGo cs []
    else cur.reverse :: digitRunsGo cs []

/-- Model of JavaScript `s.match(/\d+/g)`: the maximal runs of decimal
digits, in order (the empty list plays the role of a `null` match). -/
def digitRuns (l : List Char) : List (List Char) :=
  digitRunsGo l []

/-- Decimal value of a digit run (JavaScript `parseInt`). -/
def digitsVal (l : List Char) : Nat :=
  l.foldl (fun a c => a * 10 + (c.toNat - 48)) 0

/-- Characters of a string literal, the form texts take in this model. -/
def str (s : String) : List Char :=
  s.toList

/-- Decimal representation of a number, as used by template interpolation. -/
def natToChars (n : Nat) : List Char :=
  (Nat.repr n).toList

/-- Sum of the decimal values of all maximal digit runs of a text. -/
def evSum (l : List Char) : Nat :=
  (digitRuns l).foldl (fun sum num => sum + digitsVal num) 0

/-- Source `validateEVSpread` (utils/pokemon-utils.js): extract all numbers
from the EV string and require their sum to be exactly 506. -/
def validateEVSpread (evString : List Char) : Bool :=
  if evString.isEmpty then false
  else
    let numbers := digitRuns evString
    if numbers.isEmpty then false
    else numbers.foldl (fun sum num => sum + digitsVal num) 0 == 506

/-- Result object of `validatePokemon` ("valid" plus the optional fields the
JavaScript object literals carry). -/
structure PokeResult where
  valid : Bool
  error : Option (List Char)
  pokemon : Option (List Char)
deriving DecidableEq, Repr

/-- The trimmed non-empty lines of an entry text, exactly as computed at the
top of source `validatePokemon`. -/
def entryLines (pokemonText : List Char) : List (List Char) :=
  ((splitOnNl pokemonText).map trim).filter (fun l => !l.isEmpty)

/-- Tail of source `validatePokemon`: count the move lines and require
exactly 4 of them. -/
def movesCheck (lines : List (List Char)) (pokemonText : List Char) : PokeResult :=
  let moves := lines.filter (fun line => (str "-").isPrefixOf line)
  if moves.length != 4 then
    { valid := false
      error := some (str "Expected 4 moves, found " ++ natToChars moves.length)
      pokemon := none }
  else { valid := true, error := none, pokemon := some pokemonText }

/-- Source `validatePokemon` (utils/pokemon-utils.js). -/
def validatePokemon (pokemonText : List Char) : PokeResult :=
  let lines := entryLines pokemonText
  if lines.length < 6 then
    { valid := false, error := some (str "Pokemon entry too short"), pokemon := none }
  else
    let hasItem := (lines.headD []).contains '@'
    let hasAbility := lines.any (fun line => (str "Ability:").isPrefixOf line)
    let hasEVs := lines.any (fun line => (str "EVs:").isPrefixOf line)
    let hasNature := lines.any (fun line => containsSeq (str "Nature") line)
    let hasMoves := lines.any (fun line => (str "-").isPrefixOf line)
    if !hasItem then
      { valid := false, error := some (str "Missing item (@)"), pokemon := none }
    else if !hasAbility then
      { valid := false, error := some (str "Missing ability"), pokemon := none }
    else if !hasEVs then
      { valid := false, error := some (str "Missing EVs"), pokemon := none }
    else if !hasNature then
      { valid := false, error := some (str "Missing nature"), pokemon := none }
    else if !hasMoves then
      { valid := false, error := some (str "Missing moves"), pokemon := none }
    else
      match lines.find? (fun line => (str "EVs:").isPrefixOf line) with
      | some evLine =>
        let evSpread := trim (replaceFirst (str "EVs:") [] evLine)
        if !validateEVSpread evSpread then
          { valid := false
            error := some (str "Invalid EV spread: " ++ evSpread)
            pokemon := none }
        else movesCheck lines pokemonText
      | none => movesCheck lines pokemonText

/-- One element of the `validation_results` list built by `validateTeam`:
the per-entry result with its 1-based index spread in. -/
structure Detail where
  index : Nat
  valid : Bool
  error : Option (List Char)
  pokemon : Option (List Char)
deriving DecidableEq, Repr

/-- Result object of `validateTeam`. -/
structure TeamResult where
  valid : Bool
  error : Option (List Char)
  pokemon_count : Option Nat
  details : Option (List Detail)
deriving DecidableEq, Repr

/-- The candidate entries of a team text, exactly as computed at the top of
source `validateTeam`: split on the blank-line separator and drop
candidates that are empty after trimming. -/
def teamEntries (teamText : List Char) : List (List Char) :=
  (splitOnNl2 teamText).filter (fun entry => !(trim entry).isEmpty)

/-- The `for` loop of source `validateTeam`: `i` is the 0-based position of
the next entry, `results` the accumulated detail list, `total` the entry
count reported on success. -/
def teamLoop : List (List Char) → Nat → List Detail → Nat → TeamResult
  | [], _, results, total =>
    { valid := true, error := none, pokemon_count := some total, details := some results }
  | entry :: rest, i, results, total =>
    let result := validatePokemon entry
    let results2 := results ++
      [{ index := i + 1, valid := result.valid, error := result.error,
         pokemon := result.pokemon }]
    if result.valid = false then
      { valid := false
        error := some (str "Pokemon " ++ natToChars (i + 1) ++ str ": " ++
          result.error.getD [])
        pokemon_count := none
        details := some results2 }
    else teamLoop rest (i + 1) results2 total

/-- Source `validateTeam` (utils/pokemon-utils.js). -/
def validateTeam (teamText : List Char) : TeamResult :=
  let pokemonEntries := teamEntries teamText
  if pokemonEntries.length != 6 then
    { valid := false
      error := some (str "Expected 6 Pokemon, found " ++ natToChars pokemonEntries.length)
      pokemon_count := none
      details := none }
  else teamLoop pokemonEntries 0 [] pokemonEntries.length

/-- The line scan of source `validateAndFixTeam` (src/unnamed/part_000):
re-segment the raw lines into entries, flushing on blank lines and on
lines carrying the item delimiter. -/
def fixLoop : List (List Char) → List (List Char) → List (List Char) → List (List Char)
  | [], currentPokemon, validatedTeam =>
    if !currentPokemon.isEmpty then validatedTeam ++ [joinSep (str "\n") currentPokemon]
    else validatedTeam
  | rawLine :: rest, currentPokemon, validatedTeam =>
    let line := trim rawLine
    if line.isEmpty then
      if !currentPokemon.isEmpty then
        fixLoop rest [] (validatedTeam ++ [joinSep (str "\n") currentPokemon])
      else fixLoop rest currentPokemon validatedTeam
    else if line.contains '@' then
      if !currentPokemon.isEmpty then
        fixLoop rest [line] (validatedTeam ++ [joinSep (str "\n") currentPokemon])
      else fixLoop rest [line] validatedTeam
    else fixLoop rest (currentPokemon ++ [line]) validatedTeam

/-- Source `validateAndFixTeam` (src/unnamed/part_000).  The `format`
argument of the source only feeds a log line and is omitted; the returned
text is unchanged valid input, or the re-joined re-segmented entries. -/
def validateAndFixTeam (team : List Char) : List Char :=
  let validation := validateTeam team
  if validation.valid then team
  else joinSep (str "\n\n") (fixLoop (splitOnNl team) [] [])

/-- The raw non-blank lines of a text (lines that are not whitespace-only). -/
def nbLines (t : List Char) : List (List Char) :=
  (splitOnNl t).filter (fun l => !(trim l).isEmpty)

/-- The trimmed non-blank lines of a text, i.e. the line contents up to
surrounding whitespace. -/
def tnbLines (t : List Char) : List (List Char) :=
  ((splitOnNl t).map trim).filter (fun l => !l.isEmpty)

/-- Number of move-marker lines of an entry (trimmed non-empty lines that
start with the move marker). -/
def moveCount (pokemonText : List Char) : Nat :=
  ((entryLines pokemonText).filter (fun line => (str "-").isPrefixOf line)).length

/-- Position of the first entry rejected by `validatePokemon`, if any. -/
def firstInvalidIdx : List (List Char) → Option Nat
  | [] => none
  | e :: es =>
    if (validatePokemon e).valid = false then some 0
    else (firstInvalidIdx es).map (· + 1)

/-- Per-entry detail list for entries starting at 0-based position `i`. -/
def detailsFrom : Nat → List (List Char) → List Detail
  | _, [] => []
  | i, e :: es =>
    { index := i + 1, valid := (validatePokemon e).valid,
      error := (validatePokemon e).error, pokemon := (validatePokemon e).pokemon } ::
      detailsFrom (i + 1) es

/-! Basic facts about the splitting, trimming and digit-run primitives. -/

theorem consHead_ne_nil (c : Char) (ls : List (List Char)) : consHead c ls ≠ [] := by
  cases ls <;> simp [consHead]

theorem splitOnNl_ne_nil (l : List Char) : splitOnNl l ≠ [] := by
  cases l with
  | nil => simp [splitOnNl]
  | cons c cs =>
    rw [splitOnNl]
    split
    · simp
    · exact consHead_ne_nil _ _

theorem splitOnNl_append (a b : List Char) :
    splitOnNl (a ++ '\n' :: b) = splitOnNl a ++ splitOnNl b := by
  induction a with
  | nil => simp [splitOnNl]
  | cons c cs ih =>
    rw [List.cons_append, splitOnNl, splitOnNl]
    by_cases h : c = '\n'
    · rw [if_pos h, if_pos h, ih, List.cons_append]
    · rw [if_neg h, if_neg h, ih]
      cases hcs : splitOnNl cs with
      | nil => exact absurd hcs (splitOnNl_ne_nil cs)
      | cons y ys => simp [consHead]

theorem splitOnNl_of_not_mem {l : List Char} (h : '\n' ∉ l) : splitOnNl l = [l] := by
  induction l with
  | nil => rfl
  | cons c cs ih =>
    rw [List.mem_cons, not_or] at h
    rw [splitOnNl, if_neg (fun hc => h.1 hc.symm), ih h.2]
    rfl

theorem not_mem_of_mem_splitOnNl :
    ∀ {l p : List Char}, p ∈ splitOnNl l → '\n' ∉ p := by
  intro l
  induction l with
  | nil =>
    intro p hp
    rw [splitOnNl, List.mem_singleton] at hp
    subst hp; simp
  | cons c cs ih =>
    intro p hp
    rw [splitOnNl] at hp
    by_cases h : c = '\n'
    · rw [if_pos h] at hp
      rcases List.mem_cons.1 hp with h1 | h1
      · subst h1; simp
      · exact ih h1
    · rw [if_neg h] at hp
      cases hcs : splitOnNl cs with
      | nil => exact absurd hcs (splitOnNl_ne_nil cs)
      | cons y ys =>
        rw [hcs] at hp
        rcases List.mem_cons.1 hp with h1 | h1
        · subst h1
          intro hmem
          rcases List.mem_cons.1 hmem with h2 | h2
          · exact h h2.symm
          · exact ih (hcs ▸ List.mem_cons_self y ys) h2
        · exact ih (hcs ▸ List.mem_cons_of_mem y h1)

theorem dropWhile_head_false {p : Char → Bool} :
    ∀ {l : List Char} {x : Char} {xs : List Char}, l.dropWhile p = x :: xs → p x = false := by
  intro l
  induction l with
  | nil => intro x xs h; simp [List.dropWhile] at h
  | cons c cs ih =>
    intro x xs h
    rw [List.dropWhile_cons] at h
    by_cases hc : p c
    · rw [if_pos hc] at h; exact ih h
    · rw [if_neg hc] at h
      cases h
      exact Bool.eq_false_iff.2 hc

theorem dropWhile_dropWhile (p : Char → Bool) (l : List Char) :
    (l.dropWhile p).dropWhile p = l.dropWhile p := by
  cases h : l.dropWhile p with
  | nil => simp
  | cons x xs =>
    rw [List.dropWhile_cons, if_neg]
    simp [dropWhile_head_false h]

theorem trim_of_prefix_of_dropWhile (l : List Char) : trim l <+: l.dropWhile isWs := by
  have h0 : (l.dropWhile isWs).reverse.dropWhile isWs <:+ (l.dropWhile isWs).reverse :=
    List.dropWhile_suffix isWs
  have h1 := List.reverse_prefix.2 h0
  rw [List.reverse_reverse] at h1
  rw [trim]
  exact h1

theorem trim_trim (l : List Char) : trim (trim l) = trim l := by
  have hrev : (trim l).reverse.dropWhile isWs = (trim l).reverse := by
    rw [trim, List.reverse_reverse]
    exact dropWhile_dropWhile _ _
  have hfwd : (trim l).dropWhile isWs = trim l := by
    cases h : trim l with
    | nil => simp
    | cons x xs =>
      have hpre := trim_of_prefix_of_dropWhile l
      rw [h] at hpre
      obtain ⟨t, ht⟩ := hpre
      have hx : isWs x = false := dropWhile_head_false (l := l) ht.symm
      rw [List.dropWhile_cons, if_neg (by simp [hx])]
  have step1 : trim (trim l) = (((trim l).dropWhile isWs).reverse.dropWhile isWs).reverse :=
    rfl
  rw [step1, hfwd, hrev, List.reverse_reverse]

theorem trim_sublist (l : List Char) : (trim l).Sublist l := by
  have h2 : (trim l).Sublist (l.dropWhile isWs) :=
    (trim_of_prefix_of_dropWhile l).sublist
  exact h2.trans (List.dropWhile_suffix isWs).sublist

theorem not_mem_trim {c : Char} {l : List Char} (h : c ∉ l) : c ∉ trim l :=
  fun hc => h ((trim_sublist l).subset hc)

/-! Digit-run facts used to relate the EV-line handling to the digit sum of
the whole EV line. -/

theorem digitRunsGo_nondigit_all {w : List Char} (hw : ∀ c ∈ w, c.isDigit = false) :
    ∀ cur, digitRunsGo w cur = if cur.isEmpty then [] else [cur.reverse] := by
  induction w with
  | nil => intro cur; rfl
  | cons c cs ih =>
    intro cur
    have hc : c.isDigit = false := hw c (List.mem_cons_self c cs)
    have hcs : ∀ x ∈ cs, x.isDigit = false := fun x hx => hw x (List.mem_cons_of_mem c hx)
    rw [digitRunsGo, if_neg (by simp [hc])]
    by_cases hcur : cur.isEmpty
    · rw [if_pos hcur, if_pos hcur, ih hcs []]
      rfl
    · rw [if_neg hcur, if_neg hcur, ih hcs []]
      rfl

theorem digitRunsGo_append_nondigit {w : List Char} (hw : ∀ c ∈ w, c.isDigit = false) :
    ∀ (a cur : List Char), digitRunsGo (a ++ w) cur = digitRunsGo a cur := by
  intro a
  induction a with
  | nil =>
    intro cur
    rw [List.nil_append, digitRunsGo_nondigit_all hw cur, digitRunsGo]
  | cons c cs ih =>
    intro cur
    rw [List.cons_append, digitRunsGo, digitRunsGo]
    by_cases hc : c.isDigit
    · rw [if_pos hc, if_pos hc, ih]
    · rw [if_neg hc, if_neg hc]
      by_cases hcur : cur.isEmpty
      · rw [if_pos hcur, if_pos hcur, ih]
      · rw [if_neg hcur, if_neg hcur, ih]

theorem digitRuns_cons_nondigit {c : Char} (hc : c.isDigit = false) (s : List Char) :
    digitRuns (c :: s) = digitRuns s := by
  rw [digitRuns, digitRuns, digitRunsGo, if_neg (by simp [hc])]
  simp

theorem isWs_not_digit {c : Char} (h : isWs c = true) : c.isDigit = false := by
  rw [isWs] at h
  simp only [Bool.or_eq_true, decide_eq_true_eq] at h
  rcases h with ((((((h | h) | h) | h) | h) | h) | h) <;> subst h <;> decide

theorem digitRuns_dropWhile_ws (l : List Char) :
    digitRuns (l.dropWhile isWs) = digitRuns l := by
  induction l with
  | nil => rfl
  | cons c cs ih =>
    rw [List.dropWhile_cons]
    by_cases h : isWs c
    · rw [if_pos h, ih, digitRuns_cons_nondigit (isWs_not_digit h)]
    · rw [if_neg h]

theorem digitRuns_trim (l : List Char) : digitRuns (trim l) = digitRuns l := by
  have hsplit : l.dropWhile isWs =
      trim l ++ ((l.dropWhile isWs).reverse.takeWhile isWs).reverse := by
    conv_lhs => rw [← List.reverse_reverse (l.dropWhile isWs),
      ← List.takeWhile_append_dropWhile (p := isWs) (l := (l.dropWhile isWs).reverse)]
    rw [List.reverse_append, trim]
  have hws : ∀ c ∈ ((l.dropWhile isWs).reverse.takeWhile isWs).reverse, c.isDigit = false := by
    intro c hc
    rw [List.mem_reverse] at hc
    exact isWs_not_digit (List.mem_takeWhile_imp hc)
  calc digitRuns (trim l)
      = digitRuns (trim l ++ ((l.dropWhile isWs).reverse.takeWhile isWs).reverse) :=
        (digitRunsGo_append_nondigit hws _ []).symm
    _ = digitRuns (l.dropWhile isWs) := by rw [← hsplit]
    _ = digitRuns l := digitRuns_dropWhile_ws l

theorem replaceFirst_eq_drop {pat l : List Char} (h : pat.isPrefixOf l = true) :
    replaceFirst pat [] l = l.drop pat.length := by
  cases l with
  | nil =>
    have hp : pat = [] := by
      cases pat with
      | nil => rfl
      | cons x xs => simp [List.isPrefixOf] at h
    subst hp
    rfl
  | cons c cs =>
    rw [replaceFirst, if_pos h, List.nil_append]

theorem digitRuns_evStrip {l : List Char} (h : (str "EVs:").isPrefixOf l = true) :
    digitRuns (trim (replaceFirst (str "EVs:") [] l)) = digitRuns l := by
  rw [replaceFirst_eq_drop h, digitRuns_trim]
  obtain ⟨t, rfl⟩ := List.isPrefixOf_iff_prefix.1 h
  rw [List.drop_left]
  show digitRuns t = digitRuns ('E' :: 'V' :: 's' :: ':' :: t)
  rw [digitRuns_cons_nondigit (by decide), digitRuns_cons_nondigit (by decide),
    digitRuns_cons_nondigit (by decide), digitRuns_cons_nondigit (by decide)]

theorem digitRuns_nil : digitRuns [] = [] := rfl

theorem validateEVSpread_iff_evSum {l : List Char} (h : (str "EVs:").isPrefixOf l = true) :
    validateEVSpread (trim (replaceFirst (str "EVs:") [] l)) = true ↔ evSum l = 506 := by
  have hruns := digitRuns_evStrip h
  rw [evSum, ← hruns]
  set s := trim (replaceFirst (str "EVs:") [] l) with hs
  rw [validateEVSpread]
  by_cases hse : s.isEmpty
  · rw [if_pos hse]
    have : s = [] := List.isEmpty_iff.1 hse
    rw [this, digitRuns_nil]
    simp
  · rw [if_neg hse]
    by_cases hrn : (digitRuns s).isEmpty
    · rw [if_pos hrn]
      rw [List.isEmpty_iff.1 hrn]
      simp
    · rw [if_neg hrn]
      simp

/-- The body of `movesCheck` with its local binding expanded. -/
theorem movesCheck_eq (lines : List (List Char)) (t : List Char) :
    movesCheck lines t =
      if ((lines.filter (fun line => (str "-").isPrefixOf line)).length != 4) = true then
        { valid := false
          error := some (str "Expected 4 moves, found " ++
            natToChars (lines.filter (fun line => (str "-").isPrefixOf line)).length)
          pokemon := none }
      else { valid := true, error := none, pokemon := some t } := rfl

/-- The body of `validatePokemon` with its local bindings expanded. -/
theorem validatePokemon_eq (E : List Char) :
    validatePokemon E =
      if (entryLines E).length < 6 then
        { valid := false, error := some (str "Pokemon entry too short"), pokemon := none }
      else if (!((entryLines E).headD []).contains '@') = true then
        { valid := false, error := some (str "Missing item (@)"), pokemon := none }
      else if (!(entryLines E).any (fun line => (str "Ability:").isPrefixOf line)) = true then
        { valid := false, error := some (str "Missing ability"), pokemon := none }
      else if (!(entryLines E).any (fun line => (str "EVs:").isPrefixOf line)) = true then
        { valid := false, error := some (str "Missing EVs"), pokemon := none }
      else if (!(entryLines E).any (fun line => containsSeq (str "Nature") line)) = true then
        { valid := false, error := some (str "Missing nature"), pokemon := none }
      else if (!(entryLines E).any (fun line => (str "-").isPrefixOf line)) = true then
        { valid := false, error := some (str "Missing moves"), pokemon := none }
      else
        match (entryLines E).find? (fun line => (str "EVs:").isPrefixOf line) with
        | some evLine =>
          if (!validateEVSpread (trim (replaceFirst (str "EVs:") [] evLine))) = true then
            { valid := false
              error := some (str "Invalid EV spread: " ++
                trim (replaceFirst (str "EVs:") [] evLine))
              pokemon := none }
          else movesCheck (entryLines E) E
        | none => movesCheck (entryLines E) E := rfl

/-- The body of `validateTeam` with its local binding expanded. -/
theorem validateTeam_eq (T : List Char) :
    validateTeam T =
      if ((teamEntries T).length != 6) = true then
        { valid := false
          error := some (str "Expected 6 Pokemon, found " ++
            natToChars (teamEntries T).length)
          pokemon_count := none
          details := none }
      else teamLoop (teamEntries T) 0 [] (teamEntries T).length := rfl

/-- The body of `validateAndFixTeam` with its local binding expanded. -/
theorem validateAndFixTeam_eq (team : List Char) :
    validateAndFixTeam team =
      if (validateTeam team).valid = true then team
      else joinSep (str "\n\n") (fixLoop (splitOnNl team) [] []) := rfl

/-- Characterization of `validatePokemon`: the entry is accepted exactly when
all the structural requirements and the 506 digit sum hold on its trimmed
non-empty lines. -/
theorem validatePokemon_valid_iff (E : List Char) :
    (validatePokemon E).valid = true ↔
      (6 ≤ (entryLines E).length ∧
       ((entryLines E).headD []).contains '@' = true ∧
       (entryLines E).any (fun line => (str "Ability:").isPrefixOf line) = true ∧
       (entryLines E).any (fun line => (str "EVs:").isPrefixOf line) = true ∧
       (entryLines E).any (fun line => containsSeq (str "Nature") line) = true ∧
       ((entryLines E).filter (fun line => (str "-").isPrefixOf line)).length = 4 ∧
       evSum (((entryLines E).find? (fun line => (str "EVs:").isPrefixOf line)).getD []) = 506) := by
  rw [validatePokemon_eq]
  by_cases h6 : (entryLines E).length < 6
  · rw [if_pos h6]
    constructor
    · intro h; simp at h
    · rintro ⟨h, -⟩
      omega
  · rw [if_neg h6]
    have h6' : 6 ≤ (entryLines E).length := Nat.le_of_not_lt h6
    by_cases hItem : ((entryLines E).headD []).contains '@' = true
    swap
    · rw [if_pos (by simp only [Bool.eq_false_iff.2 hItem, Bool.not_false])]
      constructor
      · intro h; simp at h
      · rintro ⟨-, hc, -⟩; exact absurd hc hItem
    rw [if_neg (by simp only [hItem, Bool.not_true]; exact Bool.false_ne_true)]
    by_cases hAb : (entryLines E).any (fun line => (str "Ability:").isPrefixOf line) = true
    swap
    · rw [if_pos (by simp only [Bool.eq_false_iff.2 hAb, Bool.not_false])]
      constructor
      · intro h; simp at h
      · rintro ⟨-, -, hc, -⟩; exact absurd hc hAb
    rw [if_neg (by simp only [hAb, Bool.not_true]; exact Bool.false_ne_true)]
    by_cases hEv : (entryLines E).any (fun line => (str "EVs:").isPrefixOf line) = true
    swap
    · rw [if_pos (by simp only [Bool.eq_false_iff.2 hEv, Bool.not_false])]
      constructor
      · intro h; simp at h
      · rintro ⟨-, -, -, hc, -⟩; exact absurd hc hEv
    rw [if_neg (by simp only [hEv, Bool.not_true]; exact Bool.false_ne_true)]
    by_cases hNa : (entryLines E).any (fun line => containsSeq (str "Nature") line) = true
    swap
    · rw [if_pos (by simp only [Bool.eq_false_iff.2 hNa, Bool.not_false])]
      constructor
      · intro h; simp at h
      · rintro ⟨-, -, -, -, hc, -⟩; exact absurd hc hNa
    rw [if_neg (by simp only [hNa, Bool.not_true]; exact Bool.false_ne_true)]
    by_cases hMv : (entryLines E).any (fun line => (str "-").isPrefixOf line) = true
    swap
    · rw [if_pos (by simp only [Bool.eq_false_iff.2 hMv, Bool.not_false])]
      have hfilter : (entryLines E).filter (fun line => (str "-").isPrefixOf line) = [] := by
        rw [List.filter_eq_nil_iff]
        intro a ha hpa
        exact hMv (List.any_eq_true.2 ⟨a, ha, hpa⟩)
      constructor
      · intro h; simp at h
      · rintro ⟨-, -, -, -, -, hlen, -⟩
        rw [hfilter] at hlen
        simp at hlen
    rw [if_neg (by simp only [hMv, Bool.not_true]; exact Bool.false_ne_true)]
    have hex : ∃ x, x ∈ entryLines E ∧ (str "EVs:").isPrefixOf x = true := by
      simpa using hEv
    obtain ⟨ev, hev⟩ := Option.isSome_iff_exists.1 (List.find?_isSome.2 hex)
    have hpEV : (str "EVs:").isPrefixOf ev = true := List.find?_some hev
    have hiff := validateEVSpread_iff_evSum hpEV
    simp only [hev]
    by_cases hsp : validateEVSpread (trim (replaceFirst (str "EVs:") [] ev)) = true
    · rw [if_neg (by simp only [hsp, Bool.not_true]; exact Bool.false_ne_true), movesCheck_eq]
      by_cases hlen :
          ((entryLines E).filter (fun line => (str "-").isPrefixOf line)).length = 4
      · rw [if_neg (by simp [hlen])]
        constructor
        · intro _
          exact ⟨h6', hItem, hAb, hEv, hNa, hlen, hiff.1 hsp⟩
        · intro _; rfl
      · rw [if_pos (by simpa using hlen)]
        constructor
        · intro h; simp at h
        · rintro ⟨-, -, -, -, -, hc, -⟩; exact absurd hc hlen
    · rw [if_pos (by simp only [Bool.eq_false_iff.2 hsp, Bool.not_false])]
      constructor
      · intro h; simp at h
      · rintro ⟨-, -, -, -, -, -, hsum⟩
        exact absurd (hiff.2 hsum) hsp

/-- C1: `validatePokemon` accepts an entry iff it has at least 6 trimmed
non-empty lines, the header line carries the item-delimiter character,
some line starts with "Ability:", some line starts with "EVs:", some line
contains "Nature", exactly 4 lines start with the move marker, and the sum
of the decimal digit runs of the EV line is exactly 506.  ("Contains an
item-delimiter" is read, as the spec's data model defines it, as the header
line containing the delimiter.) -/
theorem C1_validateRecord_valid_iff (E : List Char) :
    (validatePokemon E).valid = true ↔
      (6 ≤ (entryLines E).length ∧
       ((entryLines E).headD []).contains '@' = true ∧
       (entryLines E).any (fun line => (str "Ability:").isPrefixOf line) = true ∧
       (entryLines E).any (fun line => (str "EVs:").isPrefixOf line) = true ∧
       (entryLines E).any (fun line => containsSeq (str "Nature") line) = true ∧
       ((entryLines E).filter (fun line => (str "-").isPrefixOf line)).length = 4 ∧
       evSum (((entryLines E).find? (fun line => (str "EVs:").isPrefixOf line)).getD []) = 506) :=
  validatePokemon_valid_iff E

/-- C6: `validateEVSpread` returns true exactly when the sum of all maximal
decimal digit runs of its argument is 506, regardless of label text; in
particular "252 Atk / 2 HP / 252 Spe" passes (sum 506) and
"252 Atk / 4 HP / 252 Spe" fails (sum 508). -/
theorem C6_validateEVSpread_digit_sum :
    (∀ s : List Char, validateEVSpread s = true ↔ evSum s = 506) ∧
    validateEVSpread (str "252 Atk / 2 HP / 252 Spe") = true ∧
    validateEVSpread (str "252 Atk / 4 HP / 252 Spe") = false := by
  refine ⟨fun s => ?_, by decide, by decide⟩
  rw [validateEVSpread, evSum]
  by_cases hse : s.isEmpty
  · rw [if_pos hse, List.isEmpty_iff.1 hse, digitRuns_nil]
    simp
  · rw [if_neg hse]
    by_cases hrn : (digitRuns s).isEmpty
    · rw [if_pos hrn, List.isEmpty_iff.1 hrn]
      simp
    · rw [if_neg hrn]
      simp

/-- C3: when `validateTeam` already reports valid, the repair pass returns
the input text unchanged. -/
theorem C3_repair_noop_on_valid (T : List Char) (h : (validateTeam T).valid = true) :
    validateAndFixTeam T = T := by
  rw [validateAndFixTeam]
  simp [h]

/-- Witness for C3: a concrete already-valid 6-entry team is returned
unchanged by the repair pass. -/
theorem C3_repair_noop_on_valid_witness :
    (validateTeam (str "A @ I\nAbility: B\nEVs: 506 HP\nJolly Nature\n- m\n- n\n- o\n- p\n\nA @ I\nAbility: B\nEVs: 506 HP\nJolly Nature\n- m\n- n\n- o\n- p\n\nA @ I\nAbility: B\nEVs: 506 HP\nJolly Nature\n- m\n- n\n- o\n- p\n\nA @ I\nAbility: B\nEVs: 506 HP\nJolly Nature\n- m\n- n\n- o\n- p\n\nA @ I\nAbility: B\nEVs: 506 HP\nJolly Nature\n- m\n- n\n- o\n- p\n\nA @ I\nAbility: B\nEVs: 506 HP\nJolly Nature\n- m\n- n\n- o\n- p")).valid = true ∧
    validateAndFixTeam (str "A @ I\nAbility: B\nEVs: 506 HP\nJolly Nature\n- m\n- n\n- o\n- p\n\nA @ I\nAbility: B\nEVs: 506 HP\nJolly Nature\n- m\n- n\n- o\n- p\n\nA @ I\nAbility: B\nEVs: 506 HP\nJolly Nature\n- m\n- n\n- o\n- p\n\nA @ I\nAbility: B\nEVs: 506 HP\nJolly Nature\n- m\n- n\n- o\n- p\n\nA @ I\nAbility: B\nEVs: 506 HP\nJolly Nature\n- m\n- n\n- o\n- p\n\nA @ I\nAbility: B\nEVs: 506 HP\nJolly Nature\n- m\n- n\n- o\n- p") =
      str "A @ I\nAbility: B\nEVs: 506 HP\nJolly Nature\n- m\n- n\n- o\n- p\n\nA @ I\nAbility: B\nEVs: 506 HP\nJolly Nature\n- m\n- n\n- o\n- p\n\nA @ I\nAbility: B\nEVs: 506 HP\nJolly Nature\n- m\n- n\n- o\n- p\n\nA @ I\nAbility: B\nEVs: 506 HP\nJolly Nature\n- m\n- n\n- o\n- p\n\nA @ I\nAbility: B\nEVs: 506 HP\nJolly Nature\n- m\n- n\n- o\n- p\n\nA @ I\nAbility: B\nEVs: 506 HP\nJolly Nature\n- m\n- n\n- o\n- p" :=
  ⟨by decide, C3_repair_noop_on_valid _ (by decide)⟩

/-- C4: whenever the number of non-empty blank-line-separated candidates
differs from 6, `validateTeam` reports invalid with the reason naming the
actual count, evaluating no entry (no detail list, no entry count). -/
theorem C4_count_gate (T : List Char) (h : (teamEntries T).length ≠ 6) :
    validateTeam T =
      { valid := false
        error := some (str "Expected 6 Pokemon, found " ++ natToChars (teamEntries T).length)
        pokemon_count := none
        details := none } := by
  rw [validateTeam_eq]
  have hb : ((teamEntries T).length != 6) = true := by simpa using h
  rw [if_pos hb]

/-- Witness for C4 at a blob with only 2 entries, matching the spec's
scenario: the reason is "Expected 6 Pokemon, found 2". -/
theorem C4_count_gate_witness :
    (teamEntries (str "A @ I\n\nB @ J")).length ≠ 6 ∧
    validateTeam (str "A @ I\n\nB @ J") =
      { valid := false
        error := some (str "Expected 6 Pokemon, found 2")
        pokemon_count := none
        details := none } := by
  refine ⟨by decide, ?_⟩
  rw [C4_count_gate (str "A @ I\n\nB @ J") (by decide)]
  decide

/-- C7 counterexample: an entry missing both an ability line and a nature
line need not report the missing-ability failure — a 1-line entry reports
"Pokemon entry too short" instead, because the line-count check runs first. -/
theorem C7_counterexample :
    ((entryLines (str "x")).any fun line => (str "Ability:").isPrefixOf line) = false ∧
    ((entryLines (str "x")).any fun line => containsSeq (str "Nature") line) = false ∧
    validatePokemon (str "x") ≠
      { valid := false, error := some (str "Missing ability"), pokemon := none } ∧
    validatePokemon (str "x") =
      { valid := false, error := some (str "Pokemon entry too short"), pokemon := none } :=
  ⟨by decide, by decide, by decide, by decide⟩

/-- C7 (amended): for every entry that passes the line-count and item-marker
checks and is missing both an ability line and a nature line,
`validatePokemon` reports only the missing-ability failure — the nature
failure is never mentioned, since the ability check runs first. -/
theorem C7_first_failure_ability (E : List Char)
    (h6 : 6 ≤ (entryLines E).length)
    (hItem : ((entryLines E).headD []).contains '@' = true)
    (hAb : ((entryLines E).any fun line => (str "Ability:").isPrefixOf line) = false)
    (hNa : ((entryLines E).any fun line => containsSeq (str "Nature") line) = false) :
    validatePokemon E =
      { valid := false, error := some (str "Missing ability"), pokemon := none } := by
  rw [validatePokemon_eq, if_neg (by omega),
    if_neg (by simp only [hItem, Bool.not_true]; exact Bool.false_ne_true),
    if_pos (by simp only [hAb, Bool.not_false])]

/-- Witness for C7 at a concrete entry with enough lines and an item marker
but neither ability nor nature line. -/
theorem C7_first_failure_ability_witness :
    6 ≤ (entryLines (str "a @ b\nc\nd\ne\nf\ng")).length ∧
    ((entryLines (str "a @ b\nc\nd\ne\nf\ng")).headD []).contains '@' = true ∧
    ((entryLines (str "a @ b\nc\nd\ne\nf\ng")).any fun line =>
      (str "Ability:").isPrefixOf line) = false ∧
    ((entryLines (str "a @ b\nc\nd\ne\nf\ng")).any fun line =>
      containsSeq (str "Nature") line) = false ∧
    validatePokemon (str "a @ b\nc\nd\ne\nf\ng") =
      { valid := false, error := some (str "Missing ability"), pokemon := none } :=
  ⟨by decide, by decide, by decide, by decide,
    C7_first_failure_ability _ (by decide) (by decide) (by decide) (by decide)⟩

/-- C9 counterexample: the reason string actually returned for a too-short
entry is "Pokemon entry too short", not the claim's "entry too short". -/
theorem C9_counterexample :
    (entryLines (str "y")).length < 6 ∧
    (validatePokemon (str "y")).error = some (str "Pokemon entry too short") ∧
    str "Pokemon entry too short" ≠ str "entry too short" :=
  ⟨by decide, by decide, by decide⟩

/-- C9 (amended): `validatePokemon` returns the code's designated reason
string for each check that is the first to fail: "Pokemon entry too short"
for fewer than 6 trimmed non-empty lines, "Missing item (@)" for a header
without the delimiter, "Missing ability", "Missing EVs", "Missing nature",
and "Missing moves" for the respective absent line kinds. -/
theorem C9_reason_strings :
    (∀ E : List Char, (entryLines E).length < 6 →
      validatePokemon E =
        { valid := false, error := some (str "Pokemon entry too short"), pokemon := none }) ∧
    (∀ E : List Char, 6 ≤ (entryLines E).length →
      ((entryLines E).headD []).contains '@' = false →
      validatePokemon E =
        { valid := false, error := some (str "Missing item (@)"), pokemon := none }) ∧
    (∀ E : List Char, 6 ≤ (entryLines E).length →
      ((entryLines E).headD []).contains '@' = true →
      ((entryLines E).any fun line => (str "Ability:").isPrefixOf line) = false →
      validatePokemon E =
        { valid := false, error := some (str "Missing ability"), pokemon := none }) ∧
    (∀ E : List Char, 6 ≤ (entryLines E).length →
      ((entryLines E).headD []).contains '@' = true →
      ((entryLines E).any fun line => (str "Ability:").isPrefixOf line) = true →
      ((entryLines E).any fun line => (str "EVs:").isPrefixOf line) = false →
      validatePokemon E =
        { valid := false, error := some (str "Missing EVs"), pokemon := none }) ∧
    (∀ E : List Char, 6 ≤ (entryLines E).length →
      ((entryLines E).headD []).contains '@' = true →
      ((entryLines E).any fun line => (str "Ability:").isPrefixOf line) = true →
      ((entryLines E).any fun line => (str "EVs:").isPrefixOf line) = true →
      ((entryLines E).any fun line => containsSeq (str "Nature") line) = false →
      validatePokemon E =
        { valid := false, error := some (str "Missing nature"), pokemon := none }) ∧
    (∀ E : List Char, 6 ≤ (entryLines E).length →
      ((entryLines E).headD []).contains '@' = true →
      ((entryLines E).any fun line => (str "Ability:").isPrefixOf line) = true →
      ((entryLines E).any fun line => (str "EVs:").isPrefixOf line) = true →
      ((entryLines E).any fun line => containsSeq (str "Nature") line) = true →
      ((entryLines E).any fun line => (str "-").isPrefixOf line) = false →
      validatePokemon E =
        { valid := false, error := some (str "Missing moves"), pokemon := none }) := by
  refine ⟨?_, ?_, ?_, ?_, ?_, ?_⟩
  · intro E h6
    rw [validatePokemon_eq, if_pos h6]
  · intro E h6 hItem
    rw [validatePokemon_eq, if_neg (by omega),
      if_pos (by simp only [hItem, Bool.not_false])]
  · intro E h6 hItem hAb
    rw [validatePokemon_eq, if_neg (by omega),
      if_neg (by simp only [hItem, Bool.not_true]; exact Bool.false_ne_true),
      if_pos (by simp only [hAb, Bool.not_false])]
  · intro E h6 hItem hAb hEv
    rw [validatePokemon_eq, if_neg (by omega),
      if_neg (by simp only [hItem, Bool.not_true]; exact Bool.false_ne_true),
      if_neg (by simp only [hAb, Bool.not_true]; exact Bool.false_ne_true),
      if_pos (by simp only [hEv, Bool.not_false])]
  · intro E h6 hItem hAb hEv hNa
    rw [validatePokemon_eq, if_neg (by omega),
      if_neg (by simp only [hItem, Bool.not_true]; exact Bool.false_ne_true),
      if_neg (by simp only [hAb, Bool.not_true]; exact Bool.false_ne_true),
      if_neg (by simp only [hEv, Bool.not_true]; exact Bool.false_ne_true),
      if_pos (by simp only [hNa, Bool.not_false])]
  · intro E h6 hItem hAb hEv hNa hMv
    rw [validatePokemon_eq, if_neg (by omega),
      if_neg (by simp only [hItem, Bool.not_true]; exact Bool.false_ne_true),
      if_neg (by simp only [hAb, Bool.not_true]; exact Bool.false_ne_true),
      if_neg (by simp only [hEv, Bool.not_true]; exact Bool.false_ne_true),
      if_neg (by simp only [hNa, Bool.not_true]; exact Bool.false_ne_true),
      if_pos (by simp only [hMv, Bool.not_false])]

/-- Witness for C9: each of the six failing checks produces its designated
reason string on a concrete entry. -/
theorem C9_reason_strings_witness :
    validatePokemon (str "z") =
      { valid := false, error := some (str "Pokemon entry too short"), pokemon := none } ∧
    validatePokemon (str "a\nb\nc\nd\ne\nf") =
      { valid := false, error := some (str "Missing item (@)"), pokemon := none } ∧
    validatePokemon (str "B @ C\nr\ns\nt\nu\nv") =
      { valid := false, error := some (str "Missing ability"), pokemon := none } ∧
    validatePokemon (str "B @ C\nAbility: A\nr\ns\nt\nu") =
      { valid := false, error := some (str "Missing EVs"), pokemon := none } ∧
    validatePokemon (str "B @ C\nAbility: A\nEVs: 506\nr\ns\nt") =
      { valid := false, error := some (str "Missing nature"), pokemon := none } ∧
    validatePokemon (str "B @ C\nAbility: A\nEVs: 506\nD Nature\ns\nt") =
      { valid := false, error := some (str "Missing moves"), pokemon := none } :=
  ⟨C9_reason_strings.1 _ (by decide),
   C9_reason_strings.2.1 _ (by decide) (by decide),
   C9_reason_strings.2.2.1 _ (by decide) (by decide) (by decide),
   C9_reason_strings.2.2.2.1 _ (by decide) (by decide) (by decide) (by decide),
   C9_reason_strings.2.2.2.2.1 _ (by decide) (by decide) (by decide) (by decide) (by decide),
   C9_reason_strings.2.2.2.2.2 _ (by decide) (by decide) (by decide) (by decide) (by decide)
     (by decide)⟩

/-- C8 counterexample: an entry with zero move-marker lines (a wrong count)
fails with "Missing moves", a reason that does not name the actual count. -/
theorem C8_counterexample :
    moveCount (str "a @ b\nAbility: x\nEVs: 506\nJolly Nature\nc\nd") = 0 ∧
    (validatePokemon (str "a @ b\nAbility: x\nEVs: 506\nJolly Nature\nc\nd")).error =
      some (str "Missing moves") ∧
    containsSeq (natToChars 0) (str "Missing moves") = false :=
  ⟨by decide, by decide, by decide⟩

/-- C8 (amended): an entry whose move-marker line count differs from 4 is
always rejected; and for a non-zero wrong count, when all earlier checks
pass, the reason is "Expected 4 moves, found {n}" with the actual count
(a zero count instead trips the earlier has-moves check). -/
theorem C8_move_count :
    (∀ E : List Char, moveCount E ≠ 4 → (validatePokemon E).valid = false) ∧
    (∀ E : List Char,
      6 ≤ (entryLines E).length →
      ((entryLines E).headD []).contains '@' = true →
      ((entryLines E).any fun line => (str "Ability:").isPrefixOf line) = true →
      ((entryLines E).any fun line => (str "EVs:").isPrefixOf line) = true →
      ((entryLines E).any fun line => containsSeq (str "Nature") line) = true →
      evSum (((entryLines E).find? fun line => (str "EVs:").isPrefixOf line).getD []) = 506 →
      moveCount E ≠ 0 → moveCount E ≠ 4 →
      validatePokemon E =
        { valid := false
          error := some (str "Expected 4 moves, found " ++ natToChars (moveCount E))
          pokemon := none }) := by
  constructor
  · intro E h
    rw [Bool.eq_false_iff]
    intro hval
    obtain ⟨-, -, -, -, -, hlen, -⟩ := (validatePokemon_valid_iff E).1 hval
    exact h hlen
  · intro E h6 hItem hAb hEv hNa hSum hmc0 hmc4
    have hMv : ((entryLines E).any fun line => (str "-").isPrefixOf line) = true := by
      rw [List.any_eq_true]
      have hne : (entryLines E).filter (fun line => (str "-").isPrefixOf line) ≠ [] := by
        intro hnil
        exact hmc0 (by simp [moveCount, hnil])
      obtain ⟨a, ha⟩ := List.exists_mem_of_ne_nil _ hne
      exact ⟨a, (List.mem_filter.1 ha).1, (List.mem_filter.1 ha).2⟩
    rw [validatePokemon_eq, if_neg (by omega),
      if_neg (by simp only [hItem, Bool.not_true]; exact Bool.false_ne_true),
      if_neg (by simp only [hAb, Bool.not_true]; exact Bool.false_ne_true),
      if_neg (by simp only [hEv, Bool.not_true]; exact Bool.false_ne_true),
      if_neg (by simp only [hNa, Bool.not_true]; exact Bool.false_ne_true),
      if_neg (by simp only [hMv, Bool.not_true]; exact Bool.false_ne_true)]
    have hex : ∃ x, x ∈ entryLines E ∧ (str "EVs:").isPrefixOf x = true := by
      simpa using hEv
    obtain ⟨ev, hev⟩ := Option.isSome_iff_exists.1 (List.find?_isSome.2 hex)
    have hpEV : (str "EVs:").isPrefixOf ev = true := List.find?_some hev
    rw [hev] at hSum
    have hsp : validateEVSpread (trim (replaceFirst (str "EVs:") [] ev)) = true :=
      (validateEVSpread_iff_evSum hpEV).2 hSum
    simp only [hev]
    rw [if_neg (by simp only [hsp, Bool.not_true]; exact Bool.false_ne_true),
      movesCheck_eq, if_pos (by simpa using hmc4)]
    rfl

/-- Witness for C8 at a concrete entry with 5 move lines passing all earlier
checks: rejected, with the reason naming the count 5. -/
theorem C8_move_count_witness :
    moveCount (str "B @ C\nAbility: A\nEVs: 506\nD Nature\n- a\n- b\n- c\n- d\n- e") = 5 ∧
    (validatePokemon (str "B @ C\nAbility: A\nEVs: 506\nD Nature\n- a\n- b\n- c\n- d\n- e")).valid
      = false ∧
    validatePokemon (str "B @ C\nAbility: A\nEVs: 506\nD Nature\n- a\n- b\n- c\n- d\n- e") =
      { valid := false
        error := some (str "Expected 4 moves, found 5")
        pokemon := none } := by
  refine ⟨by decide, C8_move_count.1 _ (by decide), ?_⟩
  rw [C8_move_count.2 (str "B @ C\nAbility: A\nEVs: 506\nD Nature\n- a\n- b\n- c\n- d\n- e")
    (by decide) (by decide) (by decide) (by decide) (by decide) (by decide) (by decide)
    (by decide)]
  decide

/-- The cons equation of `teamLoop` with its local bindings expanded. -/
theorem teamLoop_cons (e : List Char) (rest : List (List Char)) (i : Nat)
    (results : List Detail) (total : Nat) :
    teamLoop (e :: rest) i results total =
      if (validatePokemon e).valid = false then
        { valid := false
          error := some (str "Pokemon " ++ natToChars (i + 1) ++ str ": " ++
            (validatePokemon e).error.getD [])
          pokemon_count := none
          details := some (results ++
            [{ index := i + 1, valid := (validatePokemon e).valid,
               error := (validatePokemon e).error, pokemon := (validatePokemon e).pokemon }]) }
      else
        teamLoop rest (i + 1)
          (results ++
            [{ index := i + 1, valid := (validatePokemon e).valid,
               error := (validatePokemon e).error, pokemon := (validatePokemon e).pokemon }])
          total := rfl

/-- `teamLoop` characterized by the position of the first invalid entry:
it stops there with the indexed reason and the details accumulated so far
(the failing entry included), or accepts with the full detail list. -/
theorem teamLoop_eq_firstInvalid (es : List (List Char)) :
    ∀ (i : Nat) (acc : List Detail) (total : Nat),
      teamLoop es i acc total =
        match firstInvalidIdx es with
        | some k =>
          { valid := false
            error := some (str "Pokemon " ++ natToChars (i + k + 1) ++ str ": " ++
              ((validatePokemon (es.getD k [])).error.getD []))
            pokemon_count := none
            details := some (acc ++ detailsFrom i (es.take (k + 1))) }
        | none =>
          { valid := true, error := none, pokemon_count := some total
            details := some (acc ++ detailsFrom i es) } := by
  induction es with
  | nil =>
    intro i acc total
    simp [teamLoop, firstInvalidIdx, detailsFrom]
  | cons e rest ih =>
    intro i acc total
    rw [teamLoop_cons]
    by_cases hv : (validatePokemon e).valid = false
    · rw [if_pos hv, firstInvalidIdx, if_pos hv]
      simp [detailsFrom]
    · rw [if_neg hv, ih, firstInvalidIdx, if_neg hv]
      cases hfi : firstInvalidIdx rest with
      | none =>
        simp only [hfi, Option.map_none']
        simp [detailsFrom]
      | some k =>
        simp only [hfi, Option.map_some']
        have harith : i + 1 + k + 1 = i + (k + 1) + 1 := by omega
        rw [harith]
        simp [detailsFrom, List.append_assoc]

/-- C5: with exactly 6 candidates, `validateTeam` checks them in order with
1-based indices; at the first failing candidate it stops, reporting
"Pokemon {index}: {inner reason}" and the partial detail list (failing
entry included); if all pass it reports valid with `pokemon_count` 6 and
the full detail list. -/
theorem C5_first_failure_loop (T : List Char) (h : (teamEntries T).length = 6) :
    validateTeam T =
      match firstInvalidIdx (teamEntries T) with
      | some k =>
        { valid := false
          error := some (str "Pokemon " ++ natToChars (k + 1) ++ str ": " ++
            ((validatePokemon ((teamEntries T).getD k [])).error.getD []))
          pokemon_count := none
          details := some (detailsFrom 0 ((teamEntries T).take (k + 1))) }
      | none =>
        { valid := true, error := none, pokemon_count := some 6
          details := some (detailsFrom 0 (teamEntries T)) } := by
  rw [validateTeam_eq, if_neg (by simp [h]), teamLoop_eq_firstInvalid, h]
  cases firstInvalidIdx (teamEntries T) with
  | none => simp
  | some k => simp

/-- Witness for C5 at a concrete 6-entry team whose third entry has a bad
EV sum: validation stops at entry 3 as characterized. -/
theorem C5_first_failure_loop_witness :
    (teamEntries (str "A @ I\nAbility: B\nEVs: 506 HP\nJolly Nature\n- m\n- n\n- o\n- p\n\nA @ I\nAbility: B\nEVs: 506 HP\nJolly Nature\n- m\n- n\n- o\n- p\n\nA @ I\nAbility: B\nEVs: 508 HP\nJolly Nature\n- m\n- n\n- o\n- p\n\nA @ I\nAbility: B\nEVs: 506 HP\nJolly Nature\n- m\n- n\n- o\n- p\n\nA @ I\nAbility: B\nEVs: 506 HP\nJolly Nature\n- m\n- n\n- o\n- p\n\nA @ I\nAbility: B\nEVs: 506 HP\nJolly Nature\n- m\n- n\n- o\n- p")).length = 6 ∧
    validateTeam (str "A @ I\nAbility: B\nEVs: 506 HP\nJolly Nature\n- m\n- n\n- o\n- p\n\nA @ I\nAbility: B\nEVs: 506 HP\nJolly Nature\n- m\n- n\n- o\n- p\n\nA @ I\nAbility: B\nEVs: 508 HP\nJolly Nature\n- m\n- n\n- o\n- p\n\nA @ I\nAbility: B\nEVs: 506 HP\nJolly Nature\n- m\n- n\n- o\n- p\n\nA @ I\nAbility: B\nEVs: 506 HP\nJolly Nature\n- m\n- n\n- o\n- p\n\nA @ I\nAbility: B\nEVs: 506 HP\nJolly Nature\n- m\n- n\n- o\n- p") =
      match firstInvalidIdx (teamEntries (str "A @ I\nAbility: B\nEVs: 506 HP\nJolly Nature\n- m\n- n\n- o\n- p\n\nA @ I\nAbility: B\nEVs: 506 HP\nJolly Nature\n- m\n- n\n- o\n- p\n\nA @ I\nAbility: B\nEVs: 508 HP\nJolly Nature\n- m\n- n\n- o\n- p\n\nA @ I\nAbility: B\nEVs: 506 HP\nJolly Nature\n- m\n- n\n- o\n- p\n\nA @ I\nAbility: B\nEVs: 506 HP\nJolly Nature\n- m\n- n\n- o\n- p\n\nA @ I\nAbility: B\nEVs: 506 HP\nJolly Nature\n- m\n- n\n- o\n- p")) with
      | some k =>
        { valid := false
          error := some (str "Pokemon " ++ natToChars (k + 1) ++ str ": " ++
            ((validatePokemon ((teamEntries (str "A @ I\nAbility: B\nEVs: 506 HP\nJolly Nature\n- m\n- n\n- o\n- p\n\nA @ I\nAbility: B\nEVs: 506 HP\nJolly Nature\n- m\n- n\n- o\n- p\n\nA @ I\nAbility: B\nEVs: 508 HP\nJolly Nature\n- m\n- n\n- o\n- p\n\nA @ I\nAbility: B\nEVs: 506 HP\nJolly Nature\n- m\n- n\n- o\n- p\n\nA @ I\nAbility: B\nEVs: 506 HP\nJolly Nature\n- m\n- n\n- o\n- p\n\nA @ I\nAbility: B\nEVs: 506 HP\nJolly Nature\n- m\n- n\n- o\n- p")).getD k [])).error.getD []))
          pokemon_count := none
          details := some (detailsFrom 0 ((teamEntries (str "A @ I\nAbility: B\nEVs: 506 HP\nJolly Nature\n- m\n- n\n- o\n- p\n\nA @ I\nAbility: B\nEVs: 506 HP\nJolly Nature\n- m\n- n\n- o\n- p\n\nA @ I\nAbility: B\nEVs: 508 HP\nJolly Nature\n- m\n- n\n- o\n- p\n\nA @ I\nAbility: B\nEVs: 506 HP\nJolly Nature\n- m\n- n\n- o\n- p\n\nA @ I\nAbility: B\nEVs: 506 HP\nJolly Nature\n- m\n- n\n- o\n- p\n\nA @ I\nAbility: B\nEVs: 506 HP\nJolly Nature\n- m\n- n\n- o\n- p")).take (k + 1))) }
      | none =>
        { valid := true, error := none, pokemon_count := some 6
          details := some (detailsFrom 0 (teamEntries (str "A @ I\nAbility: B\nEVs: 506 HP\nJolly Nature\n- m\n- n\n- o\n- p\n\nA @ I\nAbility: B\nEVs: 506 HP\nJolly Nature\n- m\n- n\n- o\n- p\n\nA @ I\nAbility: B\nEVs: 508 HP\nJolly Nature\n- m\n- n\n- o\n- p\n\nA @ I\nAbility: B\nEVs: 506 HP\nJolly Nature\n- m\n- n\n- o\n- p\n\nA @ I\nAbility: B\nEVs: 506 HP\nJolly Nature\n- m\n- n\n- o\n- p\n\nA @ I\nAbility: B\nEVs: 506 HP\nJolly Nature\n- m\n- n\n- o\n- p"))) } :=
  ⟨by decide, C5_first_failure_loop _ (by decide)⟩

/-- Splitting on the blank-line separator leaves a text with no occurrence
of the two-newline sequence in one piece. -/
theorem splitOnNl2_no_sep :
    ∀ s : List Char, containsSeq (str "\n\n") s = false → splitOnNl2 s = [s]
  | [], _ => rfl
  | [_], _ => rfl
  | c :: c' :: cs, h => by
    rw [containsSeq, Bool.or_eq_false_iff] at h
    obtain ⟨h1, h2⟩ := h
    rw [splitOnNl2, if_neg ?hcc]
    case hcc =>
      rintro ⟨rfl, rfl⟩
      have hpre : (str "\n\n").isPrefixOf ('\n' :: '\n' :: cs) = true := by
        have hstr : str "\n\n" = ['\n', '\n'] := rfl
        rw [hstr]
        simp [List.isPrefixOf]
      rw [hpre] at h1
      cases h1
    rw [splitOnNl2_no_sep (c' :: cs) h2]
    rfl

/-- C10: `validateTeam` splits only on the exact two-newline sequence — a
text with no such sequence stays one candidate, so a whitespace-only
separator line (a space between two newlines) does not separate entries,
and an otherwise-valid 6-entry team divided that way is rejected with
count 5. -/
theorem C10_whitespace_only_separator :
    (∀ s : List Char, containsSeq (str "\n\n") s = false → splitOnNl2 s = [s]) ∧
    (validateTeam (str "A @ I\nAbility: B\nEVs: 506 HP\nJolly Nature\n- m\n- n\n- o\n- p\n\nA @ I\nAbility: B\nEVs: 506 HP\nJolly Nature\n- m\n- n\n- o\n- p\n\nA @ I\nAbility: B\nEVs: 506 HP\nJolly Nature\n- m\n- n\n- o\n- p\n\nA @ I\nAbility: B\nEVs: 506 HP\nJolly Nature\n- m\n- n\n- o\n- p\n\nA @ I\nAbility: B\nEVs: 506 HP\nJolly Nature\n- m\n- n\n- o\n- p\n\nA @ I\nAbility: B\nEVs: 506 HP\nJolly Nature\n- m\n- n\n- o\n- p")).valid = true ∧
    validateTeam (str "A @ I\nAbility: B\nEVs: 506 HP\nJolly Nature\n- m\n- n\n- o\n- p\n\nA @ I\nAbility: B\nEVs: 506 HP\nJolly Nature\n- m\n- n\n- o\n- p\n\nA @ I\nAbility: B\nEVs: 506 HP\nJolly Nature\n- m\n- n\n- o\n- p\n \nA @ I\nAbility: B\nEVs: 506 HP\nJolly Nature\n- m\n- n\n- o\n- p\n\nA @ I\nAbility: B\nEVs: 506 HP\nJolly Nature\n- m\n- n\n- o\n- p\n\nA @ I\nAbility: B\nEVs: 506 HP\nJolly Nature\n- m\n- n\n- o\n- p") =
      { valid := false
        error := some (str "Expected 6 Pokemon, found 5")
        pokemon_count := none
        details := none } :=
  ⟨splitOnNl2_no_sep, by decide, by decide⟩

/-- Witness for C10: a concrete text whose only separator line holds a
space is not split. -/
theorem C10_whitespace_only_separator_witness :
    containsSeq (str "\n\n") (str "a\n \nb") = false ∧
    splitOnNl2 (str "a\n \nb") = [str "a\n \nb"] :=
  ⟨by decide, C10_whitespace_only_separator.1 _ (by decide)⟩

/-! Line-content bookkeeping for the repair pass. -/

/-- Joining newline-free, trimmed, non-empty lines with single newlines and
re-reading the trimmed non-blank lines gives the lines back. -/
theorem tnbLines_joinSep_nl :
    ∀ cur : List (List Char),
      (∀ l ∈ cur, '\n' ∉ l ∧ trim l = l ∧ l ≠ []) →
      tnbLines (joinSep (str "\n") cur) = cur
  | [], _ => rfl
  | [x], h => by
    have hx := h x (List.mem_singleton_self x)
    rw [joinSep, tnbLines, splitOnNl_of_not_mem hx.1]
    simp [hx.2.1, hx.2.2]
  | x :: y :: ys, h => by
    have hx := h x (List.mem_cons_self x (y :: ys))
    have hrest : ∀ l ∈ y :: ys, '\n' ∉ l ∧ trim l = l ∧ l ≠ [] :=
      fun l hl => h l (List.mem_cons_of_mem x hl)
    have hjoin : joinSep (str "\n") (x :: y :: ys) =
        x ++ '\n' :: joinSep (str "\n") (y :: ys) := by
      rw [joinSep]
      simp [str]
    have hprev := tnbLines_joinSep_nl (y :: ys) hrest
    rw [tnbLines] at hprev ⊢
    rw [hjoin, splitOnNl_append, List.map_append, List.filter_append,
      splitOnNl_of_not_mem hx.1, hprev]
    simp [hx.2.1, hx.2.2]

/-- Joining entry texts with the blank-line separator concatenates their
trimmed non-blank lines. -/
theorem tnbLines_joinSep_nl2 :
    ∀ es : List (List Char),
      tnbLines (joinSep (str "\n\n") es) = (es.map tnbLines).flatten
  | [] => rfl
  | [e] => by
    rw [joinSep]
    simp
  | e :: e' :: es => by
    have hjoin : joinSep (str "\n\n") (e :: e' :: es) =
        e ++ '\n' :: ('\n' :: joinSep (str "\n\n") (e' :: es)) := by
      rw [joinSep]
      simp [str]
    have hsplit1 : splitOnNl ('\n' :: joinSep (str "\n\n") (e' :: es)) =
        [] :: splitOnNl (joinSep (str "\n\n") (e' :: es)) := by
      rw [splitOnNl, if_pos rfl]
    have hprev := tnbLines_joinSep_nl2 (e' :: es)
    rw [tnbLines] at hprev ⊢
    rw [hjoin, splitOnNl_append, hsplit1, List.map_append, List.filter_append,
      List.map_cons, List.filter_cons, hprev]
    have htnil : trim ([] : List Char) = [] := rfl
    rw [htnil]
    simp [tnbLines]

/-- The nil equation of `fixLoop` with its condition in `if` form. -/
theorem fixLoop_nil_eq (cur acc : List (List Char)) :
    fixLoop [] cur acc =
      if (!cur.isEmpty) = true then acc ++ [joinSep (str "\n") cur] else acc := rfl

/-- The cons equation of `fixLoop` with its local binding expanded. -/
theorem fixLoop_cons_eq (rawLine : List Char) (rest cur acc : List (List Char)) :
    fixLoop (rawLine :: rest) cur acc =
      if (trim rawLine).isEmpty = true then
        (if (!cur.isEmpty) = true then fixLoop rest [] (acc ++ [joinSep (str "\n") cur])
         else fixLoop rest cur acc)
      else if (trim rawLine).contains '@' = true then
        (if (!cur.isEmpty) = true then
          fixLoop rest [trim rawLine] (acc ++ [joinSep (str "\n") cur])
         else fixLoop rest [trim rawLine] acc)
      else fixLoop rest (cur ++ [trim rawLine]) acc := rfl

/-- The scan of `fixLoop` preserves line content up to trimming: the trimmed
non-blank lines of its output are those already flushed, those accumulated,
and the trimmed non-empty remaining input lines, in order. -/
theorem fixLoop_tnb :
    ∀ (ls : List (List Char)), ∀ (cur acc : List (List Char)),
      (∀ l ∈ ls, '\n' ∉ l) →
      (∀ l ∈ cur, '\n' ∉ l ∧ trim l = l ∧ l ≠ []) →
      ((fixLoop ls cur acc).map tnbLines).flatten =
        (acc.map tnbLines).flatten ++ cur ++
          ((ls.map trim).filter (fun l => !l.isEmpty)) := by
  intro ls
  induction ls with
  | nil =>
    intro cur acc hls hcur
    rw [fixLoop_nil_eq]
    by_cases hc : cur.isEmpty
    · rw [if_neg (by simp [hc])]
      have hc0 : cur = [] := List.isEmpty_iff.1 hc
      simp [hc0]
    · rw [if_pos (by simp [Bool.eq_false_iff.2 hc])]
      simp [tnbLines_joinSep_nl cur hcur]
  | cons rawLine rest ih =>
    intro cur acc hls hcur
    have hraw : '\n' ∉ rawLine := hls rawLine (List.mem_cons_self rawLine rest)
    have hrest : ∀ l ∈ rest, '\n' ∉ l := fun l hl => hls l (List.mem_cons_of_mem rawLine hl)
    rw [fixLoop_cons_eq]
    by_cases he : (trim rawLine).isEmpty
    · rw [if_pos he]
      have hfil : (((rawLine :: rest).map trim).filter (fun l => !l.isEmpty)) =
          ((rest.map trim).filter (fun l => !l.isEmpty)) := by
        rw [List.map_cons, List.filter_cons]
        simp [he]
      rw [hfil]
      by_cases hc : cur.isEmpty
      · rw [if_neg (by simp [hc])]
        rw [ih cur acc hrest hcur]
      · rw [if_pos (by simp [Bool.eq_false_iff.2 hc])]
        rw [ih [] (acc ++ [joinSep (str "\n") cur]) hrest (by simp)]
        simp [tnbLines_joinSep_nl cur hcur, List.append_assoc]
    · rw [if_neg he]
      have hne : trim rawLine ≠ [] := by
        intro h0
        rw [h0] at he
        exact he rfl
      have htr : ∀ l ∈ [trim rawLine], '\n' ∉ l ∧ trim l = l ∧ l ≠ [] := by
        intro l hl
        rw [List.mem_singleton] at hl
        subst hl
        exact ⟨not_mem_trim hraw, trim_trim rawLine, hne⟩
      have hfil : (((rawLine :: rest).map trim).filter (fun l => !l.isEmpty)) =
          trim rawLine :: ((rest.map trim).filter (fun l => !l.isEmpty)) := by
        rw [List.map_cons, List.filter_cons]
        simp [he]
      rw [hfil]
      by_cases ha : (trim rawLine).contains '@'
      · rw [if_pos ha]
        by_cases hc : cur.isEmpty
        · rw [if_neg (by simp [hc])]
          rw [ih [trim rawLine] acc hrest htr]
          have hc0 : cur = [] := List.isEmpty_iff.1 hc
          simp [hc0]
        · rw [if_pos (by simp [Bool.eq_false_iff.2 hc])]
          rw [ih [trim rawLine] (acc ++ [joinSep (str "\n") cur]) hrest htr]
          simp [tnbLines_joinSep_nl cur hcur, List.append_assoc]
      · rw [if_neg ha]
        have hcur' : ∀ l ∈ cur ++ [trim rawLine], '\n' ∉ l ∧ trim l = l ∧ l ≠ [] := by
          intro l hl
          rcases List.mem_append.1 hl with h | h
          · exact hcur l h
          · rw [List.mem_singleton] at h
            subst h
            exact ⟨not_mem_trim hraw, trim_trim rawLine, hne⟩
        rw [ih (cur ++ [trim rawLine]) acc hrest hcur']
        simp [List.append_assoc]

/-- C2 counterexample: the repair pass trims lines, so the multiset of raw
non-blank lines is not preserved — a leading space on the only content line
is lost. -/
theorem C2_counterexample :
    ¬ List.Perm (nbLines (validateAndFixTeam (str " a @ b"))) (nbLines (str " a @ b")) := by
  decide

/-- C2 (amended): the repair pass preserves the sequence (hence the
multiset) of non-blank lines up to trimming: the trimmed non-blank lines of
`validateAndFixTeam T` equal the trimmed non-blank lines of `T`, for any
`T`; the raw lines themselves are preserved only up to surrounding
whitespace, which the re-segmentation strips. -/
theorem C2_line_content_trimmed (T : List Char) :
    tnbLines (validateAndFixTeam T) = tnbLines T := by
  rw [validateAndFixTeam_eq]
  by_cases hv : (validateTeam T).valid = true
  · rw [if_pos hv]
  · rw [if_neg hv]
    rw [tnbLines_joinSep_nl2]
    rw [fixLoop_tnb (splitOnNl T) [] [] (fun l hl => not_mem_of_mem_splitOnNl hl) (by simp)]
    simp [tnbLines]

end PokemonGen
